import Mathlib

/-!
Shallow embedding of the prefect task declaration contract
(`prefect/task.py`) and the orion database configuration layer
(`src/prefect/orion/database/configurations.py`), together with proofs
about the embedded operations.
-/

set_option maxRecDepth 4000

namespace Prefect

/-- A serializable Python value, as stored in parameter defaults and
run-parameter mappings.  Python `None` is modelled by `Option` wrappers
at use sites. -/
inductive PyVal where
  | int (n : Int)
  | str (s : String)
  | boolV (b : Bool)
  deriving DecidableEq, Repr

/-- A trigger object (`prefect.triggers.*`).  Triggers are function
objects in the source; here they are opaque tags.  Function objects are
always truthy in Python, which matters for the `trigger or
all_successful` defaulting in `Task.__init__` and `Task.deserialize`. -/
inductive Trigger where
  | allSuccessful
  | allFailed
  | manualOnly
  | custom (id : Nat)
  deriving DecidableEq, Repr

/-- The runtime class of a task object: `Task.__init__` consults
`type(self).__name__` for the default name, and `Task.deserialize`
constructs a `Task` instance directly. -/
inductive TaskCls where
  | task
  | parameter
  deriving DecidableEq, Repr

/-- Python `type(self).__name__` for the two classes in `prefect/task.py`. -/
def TaskCls.clsName : TaskCls → String
  | .task => "Task"
  | .parameter => "Parameter"

/-- The ambient `prefect.context`: `Task.__init__` reads `group`, `tags`
and `flow`; `Parameter.run` reads `parameters`.  `none` models an unset
key (`context.get` returning its default). -/
structure Context where
  group : Option String
  tags : Option (List String)
  hasFlow : Bool
  parameters : Option (List (String × PyVal))
  deriving DecidableEq, Repr

/-- A context with nothing set. -/
def emptyContext : Context := ⟨none, none, false, none⟩

/-- Python `a or b` on strings where `a` may be `None`: `None` and the
empty string are falsy. -/
def pyOrStr (a : Option String) (b : String) : String :=
  match a with
  | some s => if s = "" then b else s
  | none => b

/-- Python `a or b` on lists where `a` may be `None`: `None` and the
empty collection are falsy. -/
def pyOrList (a : Option (List String)) (b : List String) : List String :=
  match a with
  | some l => if l.isEmpty then b else l
  | none => b

/-- A task object.  Fields mirror the attributes assigned in
`Task.__init__`; `requiredAttr` and `defaultAttr` model the `required`
and `default` instance attributes that only `Parameter.__init__` (or
`Parameter.deserialize`) assigns, with `none` meaning the attribute is
absent from the instance. -/
structure Task where
  cls : TaskCls
  name : String
  description : Option String
  group : String
  tags : List String
  max_retries : Int
  retry_delay : Int
  timeout : Option Int
  trigger : Trigger
  secrets : Option (List String)
  requiredAttr : Option Bool
  defaultAttr : Option (Option PyVal)
  deriving DecidableEq, Repr

/-- `Task.__init__` from `prefect/task.py`.  `retry_delay` durations are
in seconds (the source default is `timedelta(minutes=1)`, i.e. 60).
The `flow.add_task(self)` side effect is external and not modelled. -/
def taskInit (cls : TaskCls) (ctx : Context) (name : Option String)
    (description : Option String) (group : Option String)
    (tags : Option (List String)) (max_retries : Int) (retry_delay : Int)
    (timeout : Option Int) (trigger : Option Trigger)
    (secrets : Option (List String)) : Task :=
  { cls := cls
    name := pyOrStr name cls.clsName
    description := description
    group := pyOrStr group (ctx.group.getD "")
    tags := pyOrList tags (ctx.tags.getD [])
    max_retries := max_retries
    retry_delay := retry_delay
    timeout := timeout
    trigger := trigger.getD Trigger.allSuccessful
    secrets := secrets
    requiredAttr := none
    defaultAttr := none }

/-- Arguments of `Task.__init__` when every argument is defaulted, as in
`super().__init__(name=name)`. -/
def taskInitDefaults (cls : TaskCls) (ctx : Context) (name : Option String) : Task :=
  taskInit cls ctx name none none none 0 60 none none none

/-- `Parameter.__init__`: sets `required`/`default` attributes (forcing
`required = False` when a default is present) and then calls
`super().__init__(name=name)`. -/
def parameterInit (ctx : Context) (name : String) (default : Option PyVal)
    (required : Bool) : Task :=
  let required2 := if default.isSome then false else required
  let t := taskInitDefaults TaskCls.parameter ctx (some name)
  { t with requiredAttr := some required2, defaultAttr := some default }

/-- The flat mapping produced by `Task.serialize` /
`Parameter.serialize`.  `Option`-valued fields model optional presence of
the corresponding dictionary key (`qualified_name`, and
`required`/`default` which only `Parameter.serialize` adds). -/
structure SerializedTask where
  name : String
  description : Option String
  max_retries : Int
  retry_delay : Int
  timeout : Option Int
  trigger : Trigger
  qualified_name : Option String
  required : Option Bool
  default : Option (Option PyVal)
  deriving DecidableEq, Repr

/-- `Task.serialize`: the six declarative fields, nothing else. -/
def Task.serialize (t : Task) : SerializedTask :=
  { name := t.name
    description := t.description
    max_retries := t.max_retries
    retry_delay := t.retry_delay
    timeout := t.timeout
    trigger := t.trigger
    qualified_name := none
    required := none
    default := none }

/-- `Parameter.serialize`: `super().serialize()` updated with the
`required` and `default` attributes. -/
def parameterSerialize (t : Task) : SerializedTask :=
  { Task.serialize t with required := t.requiredAttr, default := t.defaultAttr }

/-- Python dynamic dispatch of `.serialize()` on a task object. -/
def serializeOf (t : Task) : SerializedTask :=
  match t.cls with
  | .task => Task.serialize t
  | .parameter => parameterSerialize t

/-- Modelled from the spec: the JSON codec layer
(`prefect.utilities.json.ObjectAttributesCodec`, declared as
`Task._json_codec` but whose module is not among the source files) adds
a `qualified_name` discriminator identifying the specialization to the
serialized mapping; `Task.deserialize` tests that key against
`"prefect.task.Parameter"`. -/
def serializeFull (t : Task) : SerializedTask :=
  { serializeOf t with
      qualified_name :=
        match t.cls with
        | .task => some "prefect.task.Task"
        | .parameter => some "prefect.task.Parameter" }

/-- The body of `Task.deserialize` after the discriminator check: a
direct `Task(...)` constructor call on the six stored fields. -/
def taskDeserializeCore (ctx : Context) (s : SerializedTask) : Task :=
  taskInit TaskCls.task ctx (some s.name) s.description none none
    s.max_retries s.retry_delay s.timeout (some s.trigger) none

/-- `Parameter.deserialize`: `super().deserialize` (with the
discriminator already popped, so the core constructor path runs) and
then assignment of the `required` and `default` attributes from the
mapping. -/
def parameterDeserialize (ctx : Context) (s : SerializedTask) : Task :=
  let t := taskDeserializeCore ctx s
  { t with requiredAttr := s.required, defaultAttr := s.default }

/-- `Task.deserialize`: dispatches on the `qualified_name` discriminator,
popping it before delegating to `Parameter.deserialize`. -/
def Task.deserialize (ctx : Context) (s : SerializedTask) : Task :=
  if s.qualified_name = some "prefect.task.Parameter" then
    parameterDeserialize ctx { s with qualified_name := none }
  else
    taskDeserializeCore ctx s

/-- Control signals raised by task bodies (`prefect.signals`); only
`FAIL` is raised inside `prefect/task.py`. -/
inductive Signal where
  | fail (msg : String)
  deriving DecidableEq, Repr

/-- The message of the `FAIL` signal raised by `Parameter.run`. -/
def parameterFailMsg (name : String) : String :=
  "Parameter \"" ++ (name ++ "\" was required but not provided.")

/-- `Parameter.run`: looks the parameter name up in the ambient
`parameters` mapping; raises `FAIL` when required and absent; otherwise
returns the supplied value or the default.  The `.ok` payload is an
`Option` because `params.get` can produce Python `None`. -/
def parameterRun (ctx : Context) (t : Task) : Except Signal (Option PyVal) :=
  let params := ctx.parameters.getD []
  if t.requiredAttr.getD false && (params.lookup t.name).isNone then
    Except.error (Signal.fail (parameterFailMsg t.name))
  else
    Except.ok
      (match params.lookup t.name with
       | some v => some v
       | none => t.defaultAttr.getD none)

theorem pyOrStr_ne_empty (a : Option String) (b : String) (hb : b ≠ "") :
    pyOrStr a b ≠ "" := by
  cases a with
  | none => exact hb
  | some s =>
      by_cases hs : s = "" <;> simp [pyOrStr, hs, hb]

theorem pyOrStr_some_of_ne (s b : String) (hs : s ≠ "") :
    pyOrStr (some s) b = s := by
  simp [pyOrStr, hs]

theorem clsName_ne_empty (cls : TaskCls) : cls.clsName ≠ "" := by
  cases cls <;> simp [TaskCls.clsName]

theorem taskInit_name_ne_empty (cls ctx name description group tags mr rd
    timeout trigger secrets) :
    (taskInit cls ctx name description group tags mr rd timeout trigger
      secrets).name ≠ "" :=
  pyOrStr_ne_empty name cls.clsName (clsName_ne_empty cls)

theorem serializeOf_fields (t : Task) :
    (serializeOf t).name = t.name ∧
    (serializeOf t).max_retries = t.max_retries ∧
    (serializeOf t).retry_delay = t.retry_delay ∧
    (serializeOf t).timeout = t.timeout ∧
    (serializeOf t).trigger = t.trigger ∧
    (serializeOf t).qualified_name = none := by
  cases h : t.cls <;> simp [serializeOf, h, Task.serialize, parameterSerialize]

theorem taskDeserializeCore_fields (ctx : Context) (s : SerializedTask)
    (h : s.name ≠ "") :
    (taskDeserializeCore ctx s).name = s.name ∧
    (taskDeserializeCore ctx s).max_retries = s.max_retries ∧
    (taskDeserializeCore ctx s).retry_delay = s.retry_delay ∧
    (taskDeserializeCore ctx s).timeout = s.timeout ∧
    (taskDeserializeCore ctx s).trigger = s.trigger := by
  simp [taskDeserializeCore, taskInit, pyOrStr_some_of_ne _ _ h]

theorem roundtrip_of_name_ne (ctx : Context) (t : Task) (h : t.name ≠ "") :
    (Task.deserialize ctx (serializeOf t)).name = t.name ∧
    (Task.deserialize ctx (serializeOf t)).max_retries = t.max_retries ∧
    (Task.deserialize ctx (serializeOf t)).retry_delay = t.retry_delay ∧
    (Task.deserialize ctx (serializeOf t)).timeout = t.timeout ∧
    (Task.deserialize ctx (serializeOf t)).trigger = t.trigger := by
  obtain ⟨hn, hm, hr, hti, htr, hq⟩ := serializeOf_fields t
  have hne : (serializeOf t).name ≠ "" := by rw [hn]; exact h
  have hcore := taskDeserializeCore_fields ctx (serializeOf t) hne
  have hdis : Task.deserialize ctx (serializeOf t)
      = taskDeserializeCore ctx (serializeOf t) := by
    simp [Task.deserialize, hq]
  rw [hdis]
  rw [hn, hm, hr, hti, htr] at hcore
  exact hcore

/-- C5: for every Task, however constructed (via `Task.__init__` or
`Parameter.__init__`, in any ambient context), deserializing its
serialization reproduces `name`, `max_retries`, `retry_delay`, `timeout`
and `trigger` exactly. -/
theorem C5_serialize_roundtrip :
    (∀ ctx ctx2 name description group tags mr rd timeout trigger secrets,
      (Task.deserialize ctx2 (serializeOf (taskInit TaskCls.task ctx name
          description group tags mr rd timeout trigger secrets))).name
        = (taskInit TaskCls.task ctx name description group tags mr rd
            timeout trigger secrets).name ∧
      (Task.deserialize ctx2 (serializeOf (taskInit TaskCls.task ctx name
          description group tags mr rd timeout trigger secrets))).max_retries
        = (taskInit TaskCls.task ctx name description group tags mr rd
            timeout trigger secrets).max_retries ∧
      (Task.deserialize ctx2 (serializeOf (taskInit TaskCls.task ctx name
          description group tags mr rd timeout trigger secrets))).retry_delay
        = (taskInit TaskCls.task ctx name description group tags mr rd
            timeout trigger secrets).retry_delay ∧
      (Task.deserialize ctx2 (serializeOf (taskInit TaskCls.task ctx name
          description group tags mr rd timeout trigger secrets))).timeout
        = (taskInit TaskCls.task ctx name description group tags mr rd
            timeout trigger secrets).timeout ∧
      (Task.deserialize ctx2 (serializeOf (taskInit TaskCls.task ctx name
          description group tags mr rd timeout trigger secrets))).trigger
        = (taskInit TaskCls.task ctx name description group tags mr rd
            timeout trigger secrets).trigger)
    ∧ (∀ ctx ctx2 name default required,
      (Task.deserialize ctx2 (serializeOf (parameterInit ctx name default
          required))).name = (parameterInit ctx name default required).name ∧
      (Task.deserialize ctx2 (serializeOf (parameterInit ctx name default
          required))).max_retries
        = (parameterInit ctx name default required).max_retries ∧
      (Task.deserialize ctx2 (serializeOf (parameterInit ctx name default
          required))).retry_delay
        = (parameterInit ctx name default required).retry_delay ∧
      (Task.deserialize ctx2 (serializeOf (parameterInit ctx name default
          required))).timeout
        = (parameterInit ctx name default required).timeout ∧
      (Task.deserialize ctx2 (serializeOf (parameterInit ctx name default
          required))).trigger
        = (parameterInit ctx name default required).trigger) := by
  constructor
  · intro ctx ctx2 name description group tags mr rd timeout trigger secrets
    exact roundtrip_of_name_ne ctx2 _
      (taskInit_name_ne_empty TaskCls.task ctx name description group tags
        mr rd timeout trigger secrets)
  · intro ctx ctx2 name default required
    refine roundtrip_of_name_ne ctx2 _ ?_
    show (parameterInit ctx name default required).name ≠ ""
    simp only [parameterInit, taskInitDefaults]
    exact taskInit_name_ne_empty TaskCls.parameter ctx (some name) none none
      none 0 60 none none none

/-- C6 counterexample: deserializing the codec-serialized form of the
Parameter `x` (default 5) dispatches through `Parameter.deserialize`,
but the object it yields is built by the `Task(...)` constructor call in
`Task.deserialize`, so it is not a Parameter instance. -/
theorem C6_deserialized_not_parameter :
    (Task.deserialize emptyContext (serializeFull
        (parameterInit emptyContext "x" (some (PyVal.int 5)) true))).cls
      ≠ TaskCls.parameter := by decide

/-- C6 (amended): serialization of a Parameter (through the codec layer)
carries the `prefect.task.Parameter` discriminator, and deserialization
dispatches on it to `Parameter.deserialize`, reproducing the `required`
and `default` fields exactly — but the resulting object is constructed
by the `Task` constructor, so its runtime class is `Task`, not
`Parameter`. -/
theorem C6_parameter_deserialize_fields (ctx ctx2 : Context) (name : String)
    (default : Option PyVal) (required : Bool) :
    (serializeFull (parameterInit ctx name default required)).qualified_name
      = some "prefect.task.Parameter" ∧
    (Task.deserialize ctx2 (serializeFull (parameterInit ctx name default
        required))).requiredAttr
      = (parameterInit ctx name default required).requiredAttr ∧
    (Task.deserialize ctx2 (serializeFull (parameterInit ctx name default
        required))).defaultAttr
      = (parameterInit ctx name default required).defaultAttr ∧
    (Task.deserialize ctx2 (serializeFull (parameterInit ctx name default
        required))).cls = TaskCls.task := by
  refine ⟨rfl, ?_, ?_, ?_⟩ <;>
    simp [Task.deserialize, serializeFull, serializeOf, parameterInit,
      taskInitDefaults, taskInit, parameterSerialize, Task.serialize,
      parameterDeserialize, taskDeserializeCore]

/-- C7: constructing a Parameter with a present default always yields
`required = False`, even when the caller passed `required = True` (or
any other value). -/
theorem C7_default_overrides_required (ctx : Context) (name : String)
    (v : PyVal) (required : Bool) :
    (parameterInit ctx name (some v) required).requiredAttr = some false := by
  simp [parameterInit]

/-- C8: `Parameter.run` raises `FAIL` naming the parameter when required
and absent from the ambient mapping; otherwise it returns the mapped
value when present and the default when absent. -/
theorem C8_parameter_run (ctx : Context) (name : String)
    (default : Option PyVal) (required : Bool) :
    ((parameterInit ctx name default required).requiredAttr = some true →
      ((ctx.parameters.getD []).lookup
          (parameterInit ctx name default required).name) = none →
      ∃ pre post, parameterRun ctx (parameterInit ctx name default required)
        = Except.error (Signal.fail (pre ++
            ((parameterInit ctx name default required).name ++ post)))) ∧
    (∀ v, ((ctx.parameters.getD []).lookup
          (parameterInit ctx name default required).name) = some v →
      parameterRun ctx (parameterInit ctx name default required)
        = Except.ok (some v)) ∧
    (((ctx.parameters.getD []).lookup
          (parameterInit ctx name default required).name) = none →
      (parameterInit ctx name default required).requiredAttr ≠ some true →
      parameterRun ctx (parameterInit ctx name default required)
        = Except.ok default) := by
  refine ⟨?_, ?_, ?_⟩
  · intro hreq habs
    refine ⟨"Parameter \"", "\" was required but not provided.", ?_⟩
    simp [parameterRun, hreq, habs, parameterFailMsg]
  · intro v hv
    have hns : ¬ ((ctx.parameters.getD []).lookup
        (parameterInit ctx name default required).name).isNone := by
      simp [hv]
    simp [parameterRun, hv]
  · intro habs hne
    have hreq : (parameterInit ctx name default required).requiredAttr.getD false
        = false := by
      cases hr : (parameterInit ctx name default required).requiredAttr with
      | none => rfl
      | some b =>
          cases b with
          | false => rfl
          | true => exact absurd hr hne
    have hdef : (parameterInit ctx name default required).defaultAttr
        = some default := rfl
    simp [parameterRun, habs, hreq, hdef]

/-- Concrete inputs exercising every branch of `C8_parameter_run`. -/
theorem C8_parameter_run_witness :
    (∃ pre post, parameterRun ⟨none, none, false, some []⟩
        (parameterInit ⟨none, none, false, some []⟩ "x" none true)
      = Except.error (Signal.fail (pre ++
          (("x" : String) ++ post)))) ∧
    parameterRun ⟨none, none, false, some [("y", PyVal.int 3)]⟩
        (parameterInit ⟨none, none, false, some [("y", PyVal.int 3)]⟩ "y"
          none true)
      = Except.ok (some (PyVal.int 3)) ∧
    parameterRun ⟨none, none, false, some []⟩
        (parameterInit ⟨none, none, false, some []⟩ "z"
          (some (PyVal.int 9)) true)
      = Except.ok (some (PyVal.int 9)) := by
  refine ⟨?_, ?_, ?_⟩
  · have h := (C8_parameter_run ⟨none, none, false, some []⟩ "x" none true).1
      (by decide) (by decide)
    obtain ⟨pre, post, hp⟩ := h
    exact ⟨pre, post, by simpa using hp⟩
  · exact (C8_parameter_run ⟨none, none, false, some [("y", PyVal.int 3)]⟩
      "y" none true).2.1 (PyVal.int 3) (by decide)
  · exact (C8_parameter_run ⟨none, none, false, some []⟩ "z"
      (some (PyVal.int 9)) true).2.2 (by decide) (by decide)

/-- One declared parameter of a `run` body signature (positional or
keyword), as seen by `inspect.signature`. -/
structure PyParam where
  name : String
  hasDefault : Bool
  deriving DecidableEq, Repr

/-- The signature of a `run` body: its ordered named parameters plus an
optional variadic-keyword capture (`**kwargs`), whose name
`inspect.signature(...).parameters` lists last and
`inspect.getfullargspec(...).varkw` reports. -/
structure PySig where
  params : List PyParam
  varkw : Option String
  deriving DecidableEq, Repr

/-- Names of the declared named parameters, in order. -/
def PySig.paramNames (sig : PySig) : List String :=
  sig.params.map PyParam.name

/-- `Task.inputs`: `tuple(inspect.signature(self.run).parameters.keys())`
— the declared parameter names in order, the variadic-keyword name
included. -/
def PySig.inputs (sig : PySig) : List String :=
  sig.paramNames ++ (match sig.varkw with | some k => [k] | none => [])

/-- The `TypeError` variants `inspect.Signature.bind` raises. -/
inductive BindErr where
  | tooManyPositional
  | unexpectedKeyword (k : String)
  | multipleValues (k : String)
  | missingArgument (k : String)
  deriving DecidableEq, Repr

/-- The result of a successful bind: values for declared named
parameters, and entries captured by the variadic-keyword parameter. -/
structure BoundArgs where
  named : List (String × PyVal)
  extra : List (String × PyVal)
  deriving DecidableEq, Repr

/-- Names already bound. -/
def boundNames (bound : List (String × PyVal)) : List String :=
  bound.map Prod.fst

/-- Keyword-argument processing of `inspect.Signature.bind`, modelled
from its documented semantics (the source delegates to the Python
standard library here): each keyword either binds a not-yet-bound
declared parameter, is captured by `**kwargs` when declared, or is an
error; at the end every defaultless declared parameter must be bound. -/
def bindKw (sig : PySig) :
    List (String × PyVal) → List (String × PyVal) →
    List (String × PyVal) → Except BindErr BoundArgs
  | bound, extra, [] =>
    match sig.params.find?
        (fun p => !p.hasDefault && !(decide (p.name ∈ boundNames bound))) with
    | some p => Except.error (BindErr.missingArgument p.name)
    | none => Except.ok ⟨bound, extra⟩
  | bound, extra, (k, v) :: rest =>
    if k ∈ sig.paramNames then
      if k ∈ boundNames bound then Except.error (BindErr.multipleValues k)
      else bindKw sig (bound ++ [(k, v)]) extra rest
    else if sig.varkw.isSome then bindKw sig bound (extra ++ [(k, v)]) rest
    else Except.error (BindErr.unexpectedKeyword k)

/-- `signature.bind(*args, **kwargs)`: positional arguments fill the
declared parameters in order, then keywords are processed. -/
def signatureBind (sig : PySig) (pos : List PyVal)
    (kw : List (String × PyVal)) : Except BindErr BoundArgs :=
  if sig.params.length < pos.length then Except.error BindErr.tooManyPositional
  else bindKw sig ((sig.paramNames.take pos.length).zip pos) [] kw

/-- `Task.__call__`: binds the call arguments against the `run`
signature and expands the variadic-keyword capture into individual
entries of the resulting keyword mapping (`callargs.pop(var_kw_arg, {})`
followed by `callargs.update(...)`). -/
def taskCall (sig : PySig) (pos : List PyVal)
    (kw : List (String × PyVal)) : Except BindErr (List (String × PyVal)) :=
  match signatureBind sig pos kw with
  | Except.error e => Except.error e
  | Except.ok ba => Except.ok (ba.named ++ ba.extra)

/-- Whether an `Except` value is a success. -/
def ExceptOk {ε α : Type} : Except ε α → Bool
  | Except.ok _ => true
  | Except.error _ => false

/-- Names bound by the positional phase. -/
def posBoundNames (sig : PySig) (pos : List PyVal) : List String :=
  sig.paramNames.take pos.length

/-- Some defaultless declared parameter receives no value, positionally
or by keyword. -/
def missingRequiredB (sig : PySig) (pos : List PyVal)
    (kw : List (String × PyVal)) : Bool :=
  sig.params.any (fun p => !p.hasDefault
    && !(decide (p.name ∈ posBoundNames sig pos))
    && !(decide (p.name ∈ kw.map Prod.fst)))

/-- An argument is supplied that nothing can bind: a positional overflow,
or a keyword matching no declared parameter with no `**kwargs` capture. -/
def extraUnboundB (sig : PySig) (pos : List PyVal)
    (kw : List (String × PyVal)) : Bool :=
  decide (sig.params.length < pos.length) ||
    kw.any (fun e => !(decide (e.1 ∈ sig.paramNames)) && sig.varkw.isNone)

/-- Every argument binds: no positional overflow, every keyword either
names a declared parameter not already bound positionally or is captured
by `**kwargs`, no keyword repeats, and every defaultless parameter gets
a value. -/
def allBindB (sig : PySig) (pos : List PyVal)
    (kw : List (String × PyVal)) : Bool :=
  decide (pos.length ≤ sig.params.length) &&
  kw.all (fun e =>
    (decide (e.1 ∈ sig.paramNames) && !(decide (e.1 ∈ posBoundNames sig pos)))
    || (!(decide (e.1 ∈ sig.paramNames)) && sig.varkw.isSome)) &&
  decide ((kw.map Prod.fst).Nodup) &&
  sig.params.all (fun p => p.hasDefault
    || decide (p.name ∈ posBoundNames sig pos)
    || decide (p.name ∈ kw.map Prod.fst))

theorem bindKw_missing (sig : PySig) (p : PyParam) (hp : p ∈ sig.params)
    (hd : p.hasDefault = false) :
    ∀ (kw bound extra : List (String × PyVal)),
      p.name ∉ boundNames bound → p.name ∉ kw.map Prod.fst →
      ExceptOk (bindKw sig bound extra kw) = false := by
  intro kw
  induction kw with
  | nil =>
      intro bound extra hb _
      have hs : (sig.params.find?
          (fun q => !q.hasDefault && !(decide (q.name ∈ boundNames bound)))).isSome := by
        rw [List.find?_isSome]
        exact ⟨p, hp, by simp [hd, hb]⟩
      rcases hfind : sig.params.find?
          (fun q => !q.hasDefault && !(decide (q.name ∈ boundNames bound))) with _ | q
      · rw [hfind] at hs; simp at hs
      · simp [bindKw, hfind, ExceptOk]
  | cons head rest ih =>
      intro bound extra hb hk
      obtain ⟨k, v⟩ := head
      have hpk : p.name ≠ k := by
        intro h; exact hk (by simp [h])
      have hkrest : p.name ∉ rest.map Prod.fst := by
        intro h; exact hk (by simp [h])
      by_cases hk1 : k ∈ sig.paramNames
      · by_cases hk2 : k ∈ boundNames bound
        · simp [bindKw, hk1, hk2, ExceptOk]
        · have hb2 : p.name ∉ boundNames (bound ++ [(k, v)]) := by
            simp only [boundNames, List.map_append, List.mem_append] at hb ⊢
            rintro (h | h)
            · exact hb (by simpa [boundNames] using h)
            · simp at h; exact hpk h
          simpa [bindKw, hk1, hk2] using ih (bound ++ [(k, v)]) extra hb2 hkrest
      · cases hv : sig.varkw with
        | none => simp [bindKw, hk1, hv, ExceptOk]
        | some w =>
            simpa [bindKw, hk1, hv] using ih bound (extra ++ [(k, v)]) hb hkrest

theorem bindKw_extra (sig : PySig) (hv : sig.varkw = none) :
    ∀ (kw bound extra : List (String × PyVal)),
      (∃ e ∈ kw, e.1 ∉ sig.paramNames) →
      ExceptOk (bindKw sig bound extra kw) = false := by
  intro kw
  induction kw with
  | nil => intro bound extra h; simp at h
  | cons head rest ih =>
      intro bound extra h
      obtain ⟨k, v⟩ := head
      by_cases hk1 : k ∈ sig.paramNames
      · have hrest : ∃ e ∈ rest, e.1 ∉ sig.paramNames := by
          obtain ⟨e, he, hne⟩ := h
          rcases List.mem_cons.mp he with h1 | h1
          · exact absurd hk1 (by rw [h1] at hne; exact hne)
          · exact ⟨e, h1, hne⟩
        by_cases hk2 : k ∈ boundNames bound
        · simp [bindKw, hk1, hk2, ExceptOk]
        · simpa [bindKw, hk1, hk2] using ih (bound ++ [(k, v)]) extra hrest
      · simp [bindKw, hk1, hv, ExceptOk]

theorem bindKw_ok (sig : PySig) :
    ∀ (kw bound extra : List (String × PyVal)),
      (∀ e ∈ kw, (e.1 ∈ sig.paramNames ∧ e.1 ∉ boundNames bound)
        ∨ (e.1 ∉ sig.paramNames ∧ sig.varkw.isSome = true)) →
      (kw.map Prod.fst).Nodup →
      (∀ p ∈ sig.params, p.hasDefault = false →
        p.name ∈ boundNames bound ∨ p.name ∈ kw.map Prod.fst) →
      ExceptOk (bindKw sig bound extra kw) = true := by
  intro kw
  induction kw with
  | nil =>
      intro bound extra _ _ h3
      have hnone : sig.params.find?
          (fun q => !q.hasDefault && !(decide (q.name ∈ boundNames bound))) = none := by
        rw [List.find?_eq_none]
        intro q hq
        simp only [Bool.and_eq_true, Bool.not_eq_true', decide_eq_false_iff_not,
          not_and, Bool.not_eq_true, decide_eq_true_eq, not_not]
        intro hqd
        rcases h3 q hq hqd with h | h
        · exact h
        · simp at h
      simp [bindKw, hnone, ExceptOk]
  | cons head rest ih =>
      intro bound extra h1 h2 h3
      obtain ⟨k, v⟩ := head
      have h2' : (rest.map Prod.fst).Nodup := by
        simpa using h2.of_cons
      rcases h1 (k, v) (List.mem_cons_self _ _) with ⟨hk1, hk2⟩ | ⟨hk1, hk2⟩
      · have h1' : ∀ e ∈ rest, (e.1 ∈ sig.paramNames
            ∧ e.1 ∉ boundNames (bound ++ [(k, v)]))
            ∨ (e.1 ∉ sig.paramNames ∧ sig.varkw.isSome = true) := by
          intro e he
          rcases h1 e (List.mem_cons_of_mem _ he) with ⟨ha, hb⟩ | hr
          · left
            refine ⟨ha, ?_⟩
            simp only [boundNames, List.map_append, List.mem_append]
            rintro (h | h)
            · exact hb (by simpa [boundNames] using h)
            · simp at h
              have : e.1 ∈ rest.map Prod.fst := List.mem_map_of_mem Prod.fst he
              have hne : k ∉ rest.map Prod.fst := by
                have := h2
                simp only [List.map_cons, List.nodup_cons] at this
                exact this.1
              rw [h] at this
              exact hne this
          · right; exact hr
        have h3' : ∀ p ∈ sig.params, p.hasDefault = false →
            p.name ∈ boundNames (bound ++ [(k, v)]) ∨ p.name ∈ rest.map Prod.fst := by
          intro p hp hpd
          rcases h3 p hp hpd with h | h
          · left; simp only [boundNames, List.map_append, List.mem_append]
            left; simpa [boundNames] using h
          · simp only [List.map_cons, List.mem_cons] at h
            rcases h with h | h
            · left; simp [boundNames, h]
            · right; exact h
        simpa [bindKw, hk1, hk2] using ih (bound ++ [(k, v)]) extra h1' h2' h3'
      · have h3' : ∀ p ∈ sig.params, p.hasDefault = false →
            p.name ∈ boundNames bound ∨ p.name ∈ rest.map Prod.fst := by
          intro p hp hpd
          rcases h3 p hp hpd with h | h
          · left; exact h
          · simp only [List.map_cons, List.mem_cons] at h
            rcases h with h | h
            · exfalso
              apply hk1
              rw [← h]
              exact List.mem_map_of_mem PyParam.name hp
            · right; exact h
        have h1' : ∀ e ∈ rest, (e.1 ∈ sig.paramNames ∧ e.1 ∉ boundNames bound)
            ∨ (e.1 ∉ sig.paramNames ∧ sig.varkw.isSome = true) := fun e he =>
          h1 e (List.mem_cons_of_mem _ he)
        simp only [bindKw, if_neg hk1, if_pos hk2]
        exact ih bound (extra ++ [(k, v)]) h1' h2' h3'

theorem boundNames_posPhase (sig : PySig) (pos : List PyVal) :
    boundNames ((sig.paramNames.take pos.length).zip pos)
      = posBoundNames sig pos := by
  have hlen : (sig.paramNames.take pos.length).length ≤ pos.length := by
    simp [PySig.paramNames]
  exact List.map_fst_zip _ _ hlen

theorem taskCall_ok_eq (sig : PySig) (pos : List PyVal)
    (kw : List (String × PyVal)) :
    ExceptOk (taskCall sig pos kw) = ExceptOk (signatureBind sig pos kw) := by
  rcases h : signatureBind sig pos kw with e | ba <;> simp [taskCall, h, ExceptOk]

/-- C9: a `Task.__call__` bind fails whenever a defaultless declared
parameter is missing or an extra unbindable argument is supplied, and
succeeds whenever every supplied argument binds. -/
theorem C9_binding_errors (sig : PySig) (pos : List PyVal)
    (kw : List (String × PyVal)) :
    (missingRequiredB sig pos kw = true ∨ extraUnboundB sig pos kw = true →
      ExceptOk (taskCall sig pos kw) = false) ∧
    (allBindB sig pos kw = true → ExceptOk (taskCall sig pos kw) = true) := by
  constructor
  · intro h
    rw [taskCall_ok_eq]
    by_cases hlen : sig.params.length < pos.length
    · simp [signatureBind, hlen, ExceptOk]
    · rcases h with h | h
      · simp only [missingRequiredB, List.any_eq_true, Bool.and_eq_true,
          Bool.not_eq_true', decide_eq_false_iff_not] at h
        obtain ⟨p, hp, ⟨hd, hpos⟩, hkw⟩ := h
        simp only [signatureBind, if_neg hlen]
        apply bindKw_missing sig p hp hd
        · rw [boundNames_posPhase]; exact hpos
        · exact hkw
      · simp only [extraUnboundB, Bool.or_eq_true, decide_eq_true_eq,
          List.any_eq_true, Bool.and_eq_true, Bool.not_eq_true',
          decide_eq_false_iff_not, Option.isNone_iff_eq_none] at h
        rcases h with h | ⟨e, he, hne, hv⟩
        · exact absurd h hlen
        · simp only [signatureBind, if_neg hlen]
          exact bindKw_extra sig hv kw _ [] ⟨e, he, hne⟩
  · intro h
    rw [taskCall_ok_eq]
    simp only [allBindB, Bool.and_eq_true, decide_eq_true_eq, List.all_eq_true,
      Bool.or_eq_true, Bool.not_eq_true', decide_eq_false_iff_not] at h
    obtain ⟨⟨⟨hlen, h1⟩, h2⟩, h3⟩ := h
    have hlen' : ¬ sig.params.length < pos.length := by omega
    simp only [signatureBind, if_neg hlen']
    apply bindKw_ok sig kw _ []
    · intro e he
      rcases h1 e he with ⟨ha, hb⟩ | ⟨ha, hb⟩
      · left
        refine ⟨ha, ?_⟩
        rw [boundNames_posPhase]
        exact hb
      · right; exact ⟨ha, hb⟩
    · exact h2
    · intro p hp hpd
      rcases h3 p hp with (h | h) | h
      · rw [h] at hpd; cases hpd
      · left; rw [boundNames_posPhase]; exact h
      · right; exact h

/-- A signature with one required parameter: binding nothing fails,
binding one positional value succeeds. -/
theorem C9_binding_errors_witness :
    ExceptOk (taskCall (PySig.mk [PyParam.mk "a" false] none) [] []) = false ∧
    ExceptOk (taskCall (PySig.mk [PyParam.mk "a" false] none)
      [PyVal.int 1] []) = true :=
  ⟨(C9_binding_errors (PySig.mk [PyParam.mk "a" false] none) [] []).1
      (Or.inl (by decide)),
    (C9_binding_errors (PySig.mk [PyParam.mk "a" false] none)
      [PyVal.int 1] []).2 (by decide)⟩

/-- The signature of a `run` body declared as `(a, b, **kwargs)`. -/
def demoSig : PySig :=
  PySig.mk [PyParam.mk "a" false, PyParam.mk "b" false] (some "kwargs")

/-- C10 counterexample: `inputs()` on a `(a, b, **kwargs)` body does not
return `("a", "b")` plus the keys of a supplied kwargs binding (here the
single extra key `"c"`); it returns the declared names including the
variadic-keyword name itself, independent of any call. -/
theorem C10_inputs_counterexample :
    PySig.inputs demoSig ≠ ["a", "b", "c"] ∧
    ExceptOk (taskCall demoSig []
      [("a", PyVal.int 1), ("b", PyVal.int 2), ("c", PyVal.int 3)]) = true := by
  constructor
  · decide
  · rfl

theorem bindKw_demoSig_extras (va vb : PyVal) :
    ∀ (extras acc : List (String × PyVal)),
      (∀ e ∈ extras, e.1 ≠ "a" ∧ e.1 ≠ "b") →
      bindKw demoSig [("a", va), ("b", vb)] acc extras
        = Except.ok (BoundArgs.mk [("a", va), ("b", vb)] (acc ++ extras)) := by
  intro extras
  induction extras with
  | nil => intro acc _; simp [bindKw, demoSig, PySig.paramNames, boundNames]
  | cons e rest ih =>
      intro acc he
      obtain ⟨ha, hb⟩ := he e (List.mem_cons_self _ _)
      obtain ⟨k, v⟩ := e
      simp only at ha hb
      have hk : k ∉ PySig.paramNames demoSig := by
        simp [demoSig, PySig.paramNames, ha, hb]
      have hrest := fun e h => he e (List.mem_cons_of_mem _ h)
      rw [bindKw, if_neg hk, if_pos (by simp [demoSig])]
      rw [ih (acc ++ [(k, v)]) hrest]
      simp

/-- C10 (amended): `inputs()` on a `(a, b, **kwargs)` body returns
`("a", "b", "kwargs")` — the declared names with the variadic-keyword
name, not the keys of any particular binding; separately, invoking
`Task.__call__` with values for `a`, `b` and extra named arguments binds
successfully and yields a keyword mapping holding `a`, `b` and every
extra key, the kwargs capture expanded. -/
theorem C10_inputs_amended :
    PySig.inputs demoSig = ["a", "b", "kwargs"] ∧
    ∀ (va vb : PyVal) (extras : List (String × PyVal)),
      (∀ e ∈ extras, e.1 ≠ "a" ∧ e.1 ≠ "b") →
      taskCall demoSig [] ([("a", va), ("b", vb)] ++ extras)
        = Except.ok ([("a", va), ("b", vb)] ++ extras) := by
  constructor
  · rfl
  · intro va vb extras hex
    have h0 : signatureBind demoSig [] ([("a", va), ("b", vb)] ++ extras)
        = bindKw demoSig [] [] (("a", va) :: ("b", vb) :: extras) := by
      simp [signatureBind, demoSig]
    have h1 : bindKw demoSig [] [] (("a", va) :: ("b", vb) :: extras)
        = bindKw demoSig [("a", va), ("b", vb)] [] extras := by
      simp [bindKw, demoSig, PySig.paramNames, boundNames]
    have hbind : signatureBind demoSig [] ([("a", va), ("b", vb)] ++ extras)
        = Except.ok (BoundArgs.mk [("a", va), ("b", vb)] extras) := by
      rw [h0, h1]
      simpa using bindKw_demoSig_extras va vb extras [] hex
    simp only [List.cons_append, List.nil_append] at hbind ⊢
    simp [taskCall, hbind]

/-- Concrete use of the amended C10 statement: extra argument `c`. -/
theorem C10_inputs_amended_witness :
    taskCall demoSig []
        [("a", PyVal.int 1), ("b", PyVal.int 2), ("c", PyVal.int 3)]
      = Except.ok [("a", PyVal.int 1), ("b", PyVal.int 2), ("c", PyVal.int 3)] :=
  C10_inputs_amended.2 (PyVal.int 1) (PyVal.int 2) [("c", PyVal.int 3)]
    (by decide)

/-- Python signature of `AsyncPostgresConfiguration.session_factory`
without `self`: one required `bind` parameter. -/
def postgresSessionFactorySig : PySig := PySig.mk [PyParam.mk "bind" false] none

/-- Python signature of `AioSqliteConfiguration.session_factory` without
`self`: no parameters at all. -/
def sqliteSessionFactorySig : PySig := PySig.mk [] none

/-- Python signature of `AioSqliteConfiguration.engine` without `self`:
three required parameters; the body of the sqlite `session_factory`
calls it as `self.engine()` with no arguments. -/
def sqliteEngineMethodSig : PySig :=
  PySig.mk [PyParam.mk "connection_url" false, PyParam.mk "echo" false,
    PyParam.mk "timeout" false] none

/-- `OrionDBInterface.session_factory` calls the active dialect's
`session_factory` with one positional argument, the engine. -/
def interfaceSessionFactoryCall (dialect : PySig) (engine : PyVal) :
    Except BindErr BoundArgs :=
  signatureBind dialect [engine] []

/-- C4: the interface's single-positional-engine call binds against the
postgres dialect's `session_factory` but not against the sqlite
dialect's, whose signature takes no engine; moreover the sqlite body's
internal zero-argument `self.engine()` call cannot bind the
three-parameter `engine` signature either. -/
theorem C4_sqlite_session_factory_mismatch :
    (∀ engine, ExceptOk
      (interfaceSessionFactoryCall postgresSessionFactorySig engine) = true) ∧
    (∀ engine, ExceptOk
      (interfaceSessionFactoryCall sqliteSessionFactorySig engine) = false) ∧
    ExceptOk (signatureBind sqliteEngineMethodSig [] []) = false := by
  refine ⟨fun engine => rfl, fun engine => rfl, by decide⟩

/-- A row of the `flow_run` table: its id, its `state_id` foreign
reference (NULL-able), and an opaque stand-in for every other column. -/
structure FlowRunRow where
  id : Nat
  state_id : Option Nat
  other : Nat
  deriving DecidableEq, Repr

/-- A row of the `flow_run_state` table (only the columns the attach
statements read). -/
structure FlowRunStateRow where
  id : Nat
  flow_run_id : Nat
  deriving DecidableEq, Repr

/-- The database state the attach statements operate on. -/
structure Db where
  flow_run : List FlowRunRow
  flow_run_state : List FlowRunStateRow
  deriving DecidableEq, Repr

/-- The `[r["id"] for r in insert_flow_run_states]` comprehension. -/
def insertedStateIds (stateRows : List FlowRunStateRow) : List Nat :=
  stateRows.map FlowRunStateRow.id

/-- The first `flow_run_state` row (in table order) satisfying the shared
filter predicates `flow_run_state.flow_run_id = run.id AND
flow_run_state.id IN inserted-state-ids`. -/
def matchingState (db : Db) (stateIds : List Nat) (runId : Nat) :
    Option FlowRunStateRow :=
  db.flow_run_state.find?
    (fun frs => decide (frs.flow_run_id = runId) && decide (frs.id ∈ stateIds))

/-- `AsyncPostgresConfiguration.set_state_id_on_inserted_flow_runs_statement`
executed: `UPDATE flow_run SET state_id = flow_run_state.id FROM
flow_run_state WHERE flow_run.id IN :run_ids AND flow_run_state.flow_run_id
= flow_run.id AND flow_run_state.id IN :state_ids`.  A run row is updated
only when the join produces a matching state row; otherwise it is left
untouched. -/
def execPostgresAttach (runIds : List Nat) (stateRows : List FlowRunStateRow)
    (db : Db) : Db :=
  { db with flow_run := db.flow_run.map (fun run =>
      if run.id ∈ runIds then
        match matchingState db (insertedStateIds stateRows) run.id with
        | some frs => { run with state_id := some frs.id }
        | none => run
      else run) }

/-- `AioSqliteConfiguration.set_state_id_on_inserted_flow_runs_statement`
executed: `UPDATE flow_run SET state_id = (SELECT flow_run_state.id FROM
flow_run_state WHERE flow_run_state.flow_run_id = flow_run.id AND
flow_run_state.id IN :state_ids LIMIT 1) WHERE flow_run.id IN :run_ids`.
Every run row in the id set is updated; a scalar subquery with no rows
yields NULL, so a run with no matching state row gets `state_id = NULL`. -/
def execSqliteAttach (runIds : List Nat) (stateRows : List FlowRunStateRow)
    (db : Db) : Db :=
  { db with flow_run := db.flow_run.map (fun run =>
      if run.id ∈ runIds then
        match matchingState db (insertedStateIds stateRows) run.id with
        | some frs => { run with state_id := some frs.id }
        | none => { run with state_id := none }
      else run) }

theorem execPostgresAttach_length (runIds stateRows db) :
    (execPostgresAttach runIds stateRows db).flow_run.length
      = db.flow_run.length := by
  simp [execPostgresAttach]

theorem execSqliteAttach_length (runIds stateRows db) :
    (execSqliteAttach runIds stateRows db).flow_run.length
      = db.flow_run.length := by
  simp [execSqliteAttach]

/-- C1: in either dialect, executing the attach statement leaves every
flow-run row whose id is outside the given run-id set entirely
unchanged, whatever other runs and state rows exist; and on every row
(in the set or not) it can touch only the `state_id` column — `id` and
the other columns are preserved. -/
theorem C1_attach_frame (runIds : List Nat) (stateRows : List FlowRunStateRow)
    (db : Db) (i : Nat) (h : i < db.flow_run.length)
    (h1 : i < (execPostgresAttach runIds stateRows db).flow_run.length)
    (h2 : i < (execSqliteAttach runIds stateRows db).flow_run.length) :
    ((db.flow_run.get ⟨i, h⟩).id ∉ runIds →
      (execPostgresAttach runIds stateRows db).flow_run.get ⟨i, h1⟩
        = db.flow_run.get ⟨i, h⟩ ∧
      (execSqliteAttach runIds stateRows db).flow_run.get ⟨i, h2⟩
        = db.flow_run.get ⟨i, h⟩) ∧
    ((execPostgresAttach runIds stateRows db).flow_run.get ⟨i, h1⟩).id
      = (db.flow_run.get ⟨i, h⟩).id ∧
    ((execPostgresAttach runIds stateRows db).flow_run.get ⟨i, h1⟩).other
      = (db.flow_run.get ⟨i, h⟩).other ∧
    ((execSqliteAttach runIds stateRows db).flow_run.get ⟨i, h2⟩).id
      = (db.flow_run.get ⟨i, h⟩).id ∧
    ((execSqliteAttach runIds stateRows db).flow_run.get ⟨i, h2⟩).other
      = (db.flow_run.get ⟨i, h⟩).other := by
  constructor
  · intro hout
    have hout2 : db.flow_run[i].id ∉ runIds := by
      simpa [List.get_eq_getElem] using hout
    constructor <;>
      simp [execPostgresAttach, execSqliteAttach, List.get_eq_getElem,
        List.getElem_map, hout2]
  · simp only [List.get_eq_getElem, execPostgresAttach, execSqliteAttach,
      List.getElem_map]
    by_cases hin : db.flow_run[i].id ∈ runIds
    · rcases hm : matchingState db (insertedStateIds stateRows)
          db.flow_run[i].id with _ | frs <;> simp [hin, hm]
    · simp [hin]

/-- Concrete instance of `C1_attach_frame`: a database holding runs 1 and
2, attaching only to run 2, leaves row 0 (run 1) unchanged in both
dialects. -/
theorem C1_attach_frame_witness :
    ((execPostgresAttach [2] [FlowRunStateRow.mk 9 2]
        (Db.mk [FlowRunRow.mk 1 (some 7) 0, FlowRunRow.mk 2 none 0]
          [FlowRunStateRow.mk 9 2])).flow_run.get ⟨0, by decide⟩
      = (Db.mk [FlowRunRow.mk 1 (some 7) 0, FlowRunRow.mk 2 none 0]
          [FlowRunStateRow.mk 9 2]).flow_run.get ⟨0, by decide⟩ ∧
    (execSqliteAttach [2] [FlowRunStateRow.mk 9 2]
        (Db.mk [FlowRunRow.mk 1 (some 7) 0, FlowRunRow.mk 2 none 0]
          [FlowRunStateRow.mk 9 2])).flow_run.get ⟨0, by decide⟩
      = (Db.mk [FlowRunRow.mk 1 (some 7) 0, FlowRunRow.mk 2 none 0]
          [FlowRunStateRow.mk 9 2]).flow_run.get ⟨0, by decide⟩) :=
  (C1_attach_frame [2] [FlowRunStateRow.mk 9 2]
    (Db.mk [FlowRunRow.mk 1 (some 7) 0, FlowRunRow.mk 2 none 0]
      [FlowRunStateRow.mk 9 2]) 0 (by decide) (by decide) (by decide)).1
    (by decide)

/-- C2 counterexample: with one pre-set run targeted by the run-id set
but no matching inserted state row, the postgres statement leaves the
run unchanged while the sqlite statement nulls its `state_id`; the two
dialects are not semantically identical on every database state. -/
theorem C2_dialects_differ :
    execPostgresAttach [1] []
        (Db.mk [FlowRunRow.mk 1 (some 7) 0] [])
      ≠ execSqliteAttach [1] []
        (Db.mk [FlowRunRow.mk 1 (some 7) 0] []) := by decide

/-- C2 (amended): whenever every targeted run present in the table has
at least one state row satisfying the shared filter predicates — as is
the case in the intended use, where the statement is issued for exactly
the just-inserted runs and their just-inserted states — the two
dialects' attach statements produce identical resulting databases. -/
theorem C2_dialects_agree (runIds : List Nat)
    (stateRows : List FlowRunStateRow) (db : Db)
    (hcover : ∀ run ∈ db.flow_run, run.id ∈ runIds →
      ∃ frs ∈ db.flow_run_state, frs.flow_run_id = run.id
        ∧ frs.id ∈ insertedStateIds stateRows) :
    execPostgresAttach runIds stateRows db
      = execSqliteAttach runIds stateRows db := by
  have hmap : ∀ run ∈ db.flow_run,
      (if run.id ∈ runIds then
        match matchingState db (insertedStateIds stateRows) run.id with
        | some frs => { run with state_id := some frs.id }
        | none => run
      else run)
      = (if run.id ∈ runIds then
        match matchingState db (insertedStateIds stateRows) run.id with
        | some frs => { run with state_id := some frs.id }
        | none => { run with state_id := none }
      else run) := by
    intro run hrun
    by_cases hin : run.id ∈ runIds
    · have hsome : (matchingState db (insertedStateIds stateRows)
          run.id).isSome := by
        rw [matchingState, List.find?_isSome]
        obtain ⟨frs, hmem, hfid, hid⟩ := hcover run hrun hin
        exact ⟨frs, hmem, by simp [hfid, hid]⟩
      rcases hm : matchingState db (insertedStateIds stateRows) run.id with
          _ | frs
      · rw [hm] at hsome; simp at hsome
      · simp [hin, hm]
    · simp [hin]
  simp only [execPostgresAttach, execSqliteAttach, Db.mk.injEq]
  exact ⟨List.map_congr_left hmap, trivial⟩

/-- Concrete instance of `C2_dialects_agree`: run 1 just inserted with
its state row 5. -/
theorem C2_dialects_agree_witness :
    execPostgresAttach [1] [FlowRunStateRow.mk 5 1]
        (Db.mk [FlowRunRow.mk 1 none 0] [FlowRunStateRow.mk 5 1])
      = execSqliteAttach [1] [FlowRunStateRow.mk 5 1]
        (Db.mk [FlowRunRow.mk 1 none 0] [FlowRunStateRow.mk 5 1]) :=
  C2_dialects_agree [1] [FlowRunStateRow.mk 5 1]
    (Db.mk [FlowRunRow.mk 1 none 0] [FlowRunStateRow.mk 5 1])
    (by decide)

/-- The cache key `(loop, connection_url, echo, timeout)` used by both
dialects' `engine` methods; the event loop is identified by a number. -/
structure EngineKey where
  loop : Nat
  url : String
  echo : Bool
  timeout : Option Int
  deriving DecidableEq, Repr

/-- The module-level `ENGINES` mapping together with an allocation
counter: each call to `create_async_engine` constructs a fresh engine
object, modelled as the next counter value, so distinct counter values
are distinct (non-reference-equal) engine instances. -/
structure EngineCache where
  entries : List (EngineKey × Nat)
  nextId : Nat
  deriving DecidableEq, Repr

/-- `cache_key in ENGINES` / `ENGINES[cache_key]` read. -/
def cacheLookup (c : EngineCache) (k : EngineKey) : Option Nat :=
  c.entries.lookup k

/-- `ENGINES[cache_key] = engine`: dictionary assignment (replaces any
existing entry for the key). -/
def cacheStore (c : EngineCache) (k : EngineKey) (e : Nat) : EngineCache :=
  { c with entries := (c.entries.filter (fun kv => !(kv.1 == k))) ++ [(k, e)] }

/-- `AsyncPostgresConfiguration.engine`: the whole body runs without any
suspension point (no `await` between the cache check and the store), so
on one event loop it executes atomically: check, construct on a miss,
store, and return the cached entry. -/
def postgresEngine (c : EngineCache) (k : EngineKey) : EngineCache × Nat :=
  match cacheLookup c k with
  | some e => (c, e)
  | none =>
      let e := c.nextId
      let c2 := cacheStore { c with nextId := c.nextId + 1 } k e
      (c2, (cacheLookup c2 k).getD 0)

/-- Control state of one caller inside `AioSqliteConfiguration.engine`:
not yet entered; suspended at the `await create_db()` that runs for a
new (in-memory or missing-file) database, holding its freshly
constructed engine; or finished with a result. -/
inductive SqliteEnginePC where
  | start
  | resume (localEngine : Nat)
  | finished (result : Nat)
  deriving DecidableEq, Repr

/-- One atomic segment of `AioSqliteConfiguration.engine` for a caller.
`newDb` is the provisioning condition (`":memory:" in
engine.url.database or "mode=memory" in ... or not
os.path.exists(...)`): when it holds, the body suspends at `await
create_db()` between constructing the engine and storing it in
`ENGINES`; the store and the final `return ENGINES[cache_key]` happen in
a later segment. -/
def sqliteEngineStep (newDb : Bool) (k : EngineKey) :
    EngineCache × SqliteEnginePC → EngineCache × SqliteEnginePC
  | (c, SqliteEnginePC.start) =>
      match cacheLookup c k with
      | some e => (c, SqliteEnginePC.finished e)
      | none =>
          let e := c.nextId
          let c2 := { c with nextId := c.nextId + 1 }
          if newDb then (c2, SqliteEnginePC.resume e)
          else
            let c3 := cacheStore c2 k e
            (c3, SqliteEnginePC.finished ((cacheLookup c3 k).getD 0))
  | (c, SqliteEnginePC.resume e) =>
      let c3 := cacheStore c k e
      (c3, SqliteEnginePC.finished ((cacheLookup c3 k).getD 0))
  | (c, SqliteEnginePC.finished r) => (c, SqliteEnginePC.finished r)

/-- Cooperative interleaving of two callers of the sqlite `engine`
method on the same event loop with the same cache key: the schedule
picks which caller runs its next atomic segment. -/
def runSchedule (newDb : Bool) (k : EngineKey) :
    List Bool → EngineCache × SqliteEnginePC × SqliteEnginePC →
    EngineCache × SqliteEnginePC × SqliteEnginePC
  | [], st => st
  | pick :: rest, (c, a, b) =>
      if pick then
        let s2 := sqliteEngineStep newDb k (c, a)
        runSchedule newDb k rest (s2.1, s2.2, b)
      else
        let s2 := sqliteEngineStep newDb k (c, b)
        runSchedule newDb k rest (s2.1, a, s2.2)

/-- The cache key of two concurrent first-use sqlite engine requests. -/
def memUrlKey : EngineKey :=
  EngineKey.mk 0 "sqlite+aiosqlite:///file::memory:" false none

/-- C3 at its failing input: two callers on the same event loop request
an engine for the same key against a new database; both miss the cache,
both construct an engine while suspended at `await create_db()`, and
they finish with two different engine instances — two constructions for
one key (the allocation counter reaches 2) and non-identical results,
contradicting the lookup-or-create contract the claim states. -/
theorem C3_sqlite_engine_race :
    runSchedule true memUrlKey [true, false, true, false]
        (EngineCache.mk [] 0, SqliteEnginePC.start, SqliteEnginePC.start)
      = (EngineCache.mk [(memUrlKey, 1)] 2,
          SqliteEnginePC.finished 0, SqliteEnginePC.finished 1) ∧
    SqliteEnginePC.finished 0 ≠ SqliteEnginePC.finished 1 := by
  constructor
  · rfl
  · decide

theorem lookup_append_of_none (k : EngineKey) (e : Nat) :
    ∀ l : List (EngineKey × Nat), (∀ kv ∈ l, kv.1 ≠ k) →
      (l ++ [(k, e)]).lookup k = some e := by
  intro l
  induction l with
  | nil => intro _; simp [List.lookup]
  | cons kv rest ih =>
      intro hl
      have hk : kv.1 ≠ k := hl kv (List.mem_cons_self _ _)
      have hbeq : (k == kv.1) = false := by
        simp [show k ≠ kv.1 from fun h => hk h.symm]
      simp only [List.cons_append, List.lookup, hbeq]
      exact ih (fun x hx => hl x (List.mem_cons_of_mem _ hx))

theorem cacheLookup_store (c : EngineCache) (k : EngineKey) (e : Nat) :
    cacheLookup (cacheStore c k e) k = some e := by
  apply lookup_append_of_none
  intro kv hkv
  have := List.of_mem_filter hkv
  simpa using this

/-- For contrast with the race theorem: the postgres `engine` body, one
atomic segment with no suspension point, returns the one cached engine
on a repeated call with the same key. -/
theorem postgresEngine_cached (c : EngineCache) (k : EngineKey) :
    (postgresEngine (postgresEngine c k).1 k).2 = (postgresEngine c k).2 := by
  rcases h : cacheLookup c k with _ | e
  · have hl := cacheLookup_store { c with nextId := c.nextId + 1 } k c.nextId
    simp [postgresEngine, h, hl]
  · simp [postgresEngine, h]

end Prefect
